import Mathlib

/-!
Verification of the GemMarkups toolchain (gemXML.py / gemSheet.py).

This file contains a shallow embedding of the two lexers, the two parsers,
the GemXML compiler and the cascade resolver, translated from the Python
source, together with theorems settling the specification claims.

Conventions of the embedding:
* Python strings are `List Char` / `String`; machine-level behaviour is
  irrelevant (no overflow in the source).
* Python code that raises an unhandled exception (`KeyError`, `IndexError`,
  `TypeError`, `ValueError`, `AttributeError`) is modelled by a distinct
  `crash` outcome carrying the exception name.
* `while` loops whose body always advances the scan position are modelled
  by recursion on the count of remaining characters; loops that may fail to
  progress (and the mutually recursive parser functions) take explicit fuel,
  with a `timeout` outcome for fuel exhaustion.  All claims are stated either
  for every fuel value or conditioned on a non-timeout result.
-/

/-- Source position: `Position` of both modules (`idx`, `ln`, `col`, `fn`).
The `ftxt` back-reference of the Python class is display-only and omitted.
The Python object starts at `idx = -1` and is advanced once during
`Lexer.__init__`; the embedding starts at the post-init position `(0,0,0)`. -/
structure Pos where
  idx : Nat
  ln : Nat
  col : Nat
  fn : String
deriving DecidableEq

/-- `Position.advance(current_char)`: increment `idx` and `col`,
then reset `col` and bump `ln` if the char just consumed was a newline. -/
def Pos.advanceChar (p : Pos) (c : Option Char) : Pos :=
  if c = some '\n' then ⟨p.idx + 1, p.ln + 1, 0, p.fn⟩
  else ⟨p.idx + 1, p.ln, p.col + 1, p.fn⟩

/-- Python `dict` assignment `d[k] = v`: replace in place if the key exists,
else append at the end (insertion order preserved). -/
def dictInsert {V : Type} (m : List (String × V)) (k : String) (v : V) :
    List (String × V) :=
  match m with
  | [] => [(k, v)]
  | (k', v') :: rest =>
      if k' = k then (k, v) :: rest else (k', v') :: dictInsert rest k v

/-- Python `dict` lookup `d.get(k)`. -/
def dictLookup {V : Type} (m : List (String × V)) (k : String) : Option V :=
  match m with
  | [] => none
  | (k', v') :: rest => if k' = k then some v' else dictLookup rest k

/-- Shared lexer state: the full text and the current position.
The Python `current_char` is the derived value `ftxt[pos.idx]` when in
bounds and `None` otherwise. -/
structure LexSt where
  ftxt : List Char
  pos : Pos

def LexSt.cur (st : LexSt) : Option Char := st.ftxt[st.pos.idx]?

def LexSt.advance (st : LexSt) : LexSt :=
  { st with pos := st.pos.advanceChar st.cur }

theorem LexSt.idx_lt_of_cur {st : LexSt} {c : Char} (h : st.cur = some c) :
    st.pos.idx < st.ftxt.length := by
  by_contra hlt
  have : st.ftxt[st.pos.idx]? = none := List.getElem?_eq_none (by omega)
  simp [LexSt.cur, this] at h

theorem LexSt.advance_idx (st : LexSt) :
    st.advance.pos.idx = st.pos.idx + 1 := by
  simp only [LexSt.advance, Pos.advanceChar]
  split <;> rfl

theorem LexSt.advance_ftxt (st : LexSt) : st.advance.ftxt = st.ftxt := rfl

def isWS (c : Char) : Bool := c = ' ' || c = '\t' || c = '\n'

def isAsciiLetter (c : Char) : Bool :=
  ('a' ≤ c && c ≤ 'z') || ('A' ≤ c && c ≤ 'Z')

def isAsciiAlnum (c : Char) : Bool := isAsciiLetter c || ('0' ≤ c && c ≤ '9')

/-- Body of `skip_whitespace`.  The loop advances once per iteration, so the
count of characters from the current index to the end of the text bounds the
iteration count; the wrapper below supplies exactly that bound, making the
recursion structural (the `0` case is reached only with `cur = none`). -/
def skipWSAux : Nat → LexSt → LexSt
  | 0, st => st
  | fuel + 1, st =>
    match st.cur with
    | some c => if isWS c then skipWSAux fuel st.advance else st
    | none => st

/-- `skip_whitespace` of both lexers. -/
def skipWS (st : LexSt) : LexSt := skipWSAux (st.ftxt.length - st.pos.idx) st

/-- Body of a `while current_char is not None and p(current_char)`
character-collecting loop, bounded like `skipWSAux`. -/
def takeWhileChAux (p : Char → Bool) : Nat → LexSt → List Char × LexSt
  | 0, st => ([], st)
  | fuel + 1, st =>
    match st.cur with
    | some c =>
        if p c then
          let r := takeWhileChAux p fuel st.advance
          (c :: r.1, r.2)
        else ([], st)
    | none => ([], st)

/-- A `while current_char is not None and p(current_char)` character-collecting
loop; returns the collected run and the state after it. -/
def takeWhileCh (p : Char → Bool) (st : LexSt) : List Char × LexSt :=
  takeWhileChAux p (st.ftxt.length - st.pos.idx) st

/-- Display of `current_char` inside a Python f-string (`None` prints as
`None`). -/
def showCur : Option Char → String
  | none => "None"
  | some c => String.mk [c]

/-- Model of Python `int(s)` on a string: optional surrounding whitespace,
optional sign, then at least one digit.  Returns `none` where `int()` would
raise `ValueError`. -/
def pyInt (s : String) : Option Int :=
  let cs := (s.data.dropWhile isWS).reverse.dropWhile isWS |>.reverse
  let (neg, digits) :=
    match cs with
    | '-' :: rest => (true, rest)
    | '+' :: rest => (false, rest)
    | rest => (false, rest)
  if digits ≠ [] ∧ digits.all (fun c => '0' ≤ c && c ≤ '9') then
    let n := digits.foldl (fun acc c => acc * 10 + (c.toNat - '0'.toNat)) 0
    some (if neg then -(n : Int) else (n : Int))
  else none

/-- Python `//` on ints (floor division). -/
def pyDiv (a b : Int) : Int := Int.fdiv a b

/-- Python `str.endswith`. -/
def pyEndsWith (s suffix : String) : Bool :=
  let a := s.data
  let b := suffix.data
  decide (b.length ≤ a.length) && a.drop (a.length - b.length) == b

namespace gemSheet

/-- Token kinds of the GemSheet lexer (`gemSheet.TT`). -/
inductive TT where
  | EOF | LBR | RBR | PROPERTY | VALUE | CLASS | ID | TAG
deriving DecidableEq

/-- `gemSheet.Token`.  Every GemSheet token is constructed with real
positions, so the fields are plain `Pos`. -/
structure Token where
  startPos : Pos
  endPos : Pos
  type : TT
  value : String := ""
deriving DecidableEq

/-- `gemSheet.Error` and its subclasses: the subclass is recorded in
`name`. -/
structure Err where
  startPos : Pos
  endPos : Pos
  name : String
  details : String
deriving DecidableEq

/-- Result of `Lexer.lex`: a token list, a lexing error, or fuel
exhaustion (the Python loop always progresses, so real runs never time
out). -/
inductive LexOut where
  | ok (toks : List Token)
  | err (e : Err)
  | timeout
deriving DecidableEq

/-- One iteration of the `while self.current_char is not None` loop of
`gemSheet.Lexer.lex`, emitting the tokens produced from this point on.
The Python code appends to an accumulator; emitting `tok :: rest` produces
the identical list. -/
def lexLoop : Nat → LexSt → LexOut
  | 0, _ => .timeout
  | fuel + 1, st =>
    match st.cur with
    | none => .ok [⟨st.pos, st.pos, .EOF, ""⟩]
    | some c =>
      let startP := st.pos
      if isWS c then lexLoop fuel (skipWS st)
      else if c = '#' then
        match lexLoop fuel st.advance with
        | .ok rest => .ok (⟨startP, startP, .ID, ""⟩ :: rest)
        | o => o
      else if c = '.' then
        match lexLoop fuel st.advance with
        | .ok rest => .ok (⟨startP, startP, .CLASS, ""⟩ :: rest)
        | o => o
      else if c = '{' then
        match lexLoop fuel st.advance with
        | .ok rest => .ok (⟨startP, startP, .LBR, ""⟩ :: rest)
        | o => o
      else if c = '}' then
        match lexLoop fuel st.advance with
        | .ok rest => .ok (⟨startP, startP, .RBR, ""⟩ :: rest)
        | o => o
      else if isAsciiLetter c then
        let r1 := takeWhileCh (fun ch => isAsciiLetter ch || ch = '-') st
        let propertyName := String.mk r1.1
        let propertyEndP := r1.2.pos
        let st2 := skipWS r1.2
        if st2.cur = some '{' then
          -- bare element name directly before '{': a TAG token; the '{'
          -- is left for the next iteration
          match lexLoop fuel st2 with
          | .ok rest => .ok (⟨startP, propertyEndP, .TAG, propertyName⟩ :: rest)
          | o => o
        else if st2.cur = some ':' then
          let st4 := skipWS st2.advance
          let valuesStartP := st4.pos
          let r2 := takeWhileCh (fun ch => !(ch = ';' || ch = '\n')) st4
          let valuesEndP := r2.2.pos
          if r2.2.cur = some ';' then
            match lexLoop fuel r2.2.advance with
            | .ok rest =>
                .ok (⟨startP, propertyEndP, .PROPERTY, propertyName⟩ ::
                     ⟨valuesStartP, valuesEndP, .VALUE, String.mk r2.1⟩ :: rest)
            | o => o
          else .err ⟨r2.2.pos, r2.2.pos, "ExpectedCharacter", "';' (after value)"⟩
        else .err ⟨st2.pos, st2.pos, "ExpectedCharacter", "':' (after property)"⟩
      else .err ⟨st.pos, st.pos, "UnexpectedCharacter",
                 "'" ++ String.mk [c] ++ "'"⟩

/-- `gemSheet.Lexer(fn, ftxt).lex()`.  Every loop iteration consumes at
least one character, so `length + 1` fuel always suffices. -/
def lex (fn ftxt : String) : LexOut :=
  lexLoop (ftxt.length + 1) ⟨ftxt.data, ⟨0, 0, 0, fn⟩⟩

/-- Shape invariant of lexer-produced token streams, on the list of token
kinds: a sequence of items in which every `PROPERTY` is immediately
followed by a `VALUE`, closed by exactly one final `EOF`. -/
inductive PVtypes : List TT → Prop where
  | base : PVtypes [.EOF]
  | pv {rest : List TT} : PVtypes rest → PVtypes (.PROPERTY :: .VALUE :: rest)
  | other {t : TT} {rest : List TT} (h1 : t ≠ .PROPERTY) (h2 : t ≠ .EOF)
      (h : PVtypes rest) : PVtypes (t :: rest)

def LexOut.isOkB : LexOut → Bool
  | .ok _ => true
  | _ => false

def toksOf : LexOut → List Token
  | .ok t => t
  | _ => []

/-- `gemSheet.Parser`'s notion of the current token: `advance` stops
updating `current_tok` once `idx` runs past the end, so for a non-empty
token list the current token is `tokens[min idx (len-1)]`. -/
def curTok (toks : List Token) (i : Nat) : Token :=
  toks.getD (min i (toks.length - 1)) ⟨⟨0, 0, 0, ""⟩, ⟨0, 0, 0, ""⟩, .EOF, ""⟩

/-- Result of a parser routine: value plus next token index. -/
inductive PRes (α : Type) where
  | ok (v : α)
  | err (e : Err)
  | timeout
deriving DecidableEq

/-- The `while self.current_tok.type not in (TT.RBR, TT.EOF)` loop of
`Parser.parse_block` plus the closing-brace check after it. -/
def parseBlockLoop :
    Nat → List Token → Nat → List (String × String) →
    PRes (List (String × String) × Nat)
  | 0, _, _, _ => .timeout
  | fuel + 1, toks, i, decls =>
    if (curTok toks i).type = .RBR ∨ (curTok toks i).type = .EOF then
      if (curTok toks i).type = .RBR then .ok (decls, i + 1)
      else .err ⟨(curTok toks i).startPos, (curTok toks i).endPos,
                 "InvalidSyntax", "Expected '\x7d' after block."⟩
    else if (curTok toks i).type = .PROPERTY then
      if (curTok toks (i + 1)).type = .VALUE then
        parseBlockLoop fuel toks (i + 2)
          (dictInsert decls (curTok toks i).value (curTok toks (i + 1)).value)
      else .err ⟨(curTok toks (i + 1)).startPos, (curTok toks (i + 1)).endPos,
                 "InvalidSyntax", "Expected value after property"⟩
    else parseBlockLoop fuel toks (i + 1) decls

/-- `gemSheet.Parser.parse_block`, entered with the current token index. -/
def parseBlock (fuel : Nat) (toks : List Token) (i : Nat) :
    PRes (List (String × String) × Nat) :=
  if (curTok toks i).type = .LBR then parseBlockLoop fuel toks (i + 1) []
  else .err ⟨(curTok toks i).startPos, (curTok toks i).endPos,
             "InvalidSyntax", "Expected '\x7b'"⟩

/-- Whether a parse result is the `Expected value after property` failure. -/
def isPVerr : PRes (List (String × String) × Nat) → Bool
  | .err e => e.details == "Expected value after property"
  | _ => false

/-- Unreachability of the `Expected value after property` branch for a
given token list, at every fuel and every entry index. -/
def blockPVerrUnreachable (toks : List Token) : Prop :=
  ∀ fuel i, isPVerr (parseBlock fuel toks i) = false

end gemSheet

namespace gemSheet

theorem PVtypes.ne_nil {l : List TT} (h : PVtypes l) : l ≠ [] := by
  cases h <;> simp

theorem PVtypes.follow {l : List TT} (h : PVtypes l) :
    ∀ i, l[i]? = some .PROPERTY → l[i + 1]? = some .VALUE := by
  induction h with
  | base =>
      intro i hi
      match i with
      | 0 => simp at hi
      | n + 1 => simp at hi
  | pv _ ih =>
      intro i hi
      match i with
      | 0 => simp
      | 1 => simp at hi
      | n + 2 => simpa using ih n (by simpa using hi)
  | other h1 h2 _ ih =>
      intro i hi
      match i with
      | 0 => simp at hi; exact absurd hi h1
      | n + 1 => simpa using ih n (by simpa using hi)

theorem PVtypes.last_eof {l : List TT} (h : PVtypes l) :
    l[l.length - 1]? = some .EOF := by
  induction h with
  | base => simp
  | pv hrest ih =>
      rename_i rest
      have hne : rest ≠ [] := hrest.ne_nil
      match rest, hne with
      | r :: rs, _ =>
          simpa using ih
  | other h1 h2 hrest ih =>
      rename_i t rest
      have hne : rest ≠ [] := hrest.ne_nil
      match rest, hne with
      | r :: rs, _ =>
          simpa using ih

/-- Bridge between `PVtypes` and the parser's `curTok` view: if the current
token is a `PROPERTY`, the token after `advance` is its `VALUE`. -/
theorem curTok_follow {toks : List Token}
    (hpv : PVtypes (toks.map Token.type)) {i : Nat}
    (hp : (curTok toks i).type = .PROPERTY) :
    (curTok toks (i + 1)).type = .VALUE := by
  have hne : toks ≠ [] := by
    intro he
    exact hpv.ne_nil (by simp [he])
  have hlenpos : 0 < toks.length := List.length_pos.mpr hne
  set n := toks.length with hn
  have hj : min i (n - 1) < n := by omega
  have hget : curTok toks i = toks[min i (n - 1)] := by
    rw [curTok, List.getD_eq_getElem?_getD, List.getElem?_eq_getElem hj]
    rfl
  have htl : (toks.map Token.type)[min i (n - 1)]? = some .PROPERTY := by
    rw [List.getElem?_map, List.getElem?_eq_getElem hj]
    simpa [hget] using congrArg some hp
  have hlast := hpv.last_eof
  rw [List.length_map] at hlast
  have hjlt : min i (n - 1) < n - 1 := by
    rcases Nat.lt_or_ge (min i (n - 1)) (n - 1) with hlt | hge
    · exact hlt
    · exfalso
      have heq : min i (n - 1) = n - 1 := by omega
      rw [heq] at htl
      rw [htl] at hlast
      simp at hlast
  have hieq : min i (n - 1) = i := by omega
  rw [hieq] at htl
  have hval := hpv.follow i htl
  have hi1 : i + 1 < n := by omega
  have hmin1 : min (i + 1) (n - 1) = i + 1 := by omega
  rw [List.getElem?_map, List.getElem?_eq_getElem hi1] at hval
  have : (curTok toks (i + 1)) = toks[i + 1] := by
    rw [curTok, List.getD_eq_getElem?_getD, ← hn, hmin1,
      List.getElem?_eq_getElem hi1]
    rfl
  rw [this]
  simpa using hval

theorem parseBlockLoop_no_pverr {toks : List Token}
    (hpv : PVtypes (toks.map Token.type)) :
    ∀ fuel i decls, isPVerr (parseBlockLoop fuel toks i decls) = false := by
  intro fuel
  induction fuel with
  | zero => intro i decls; simp [parseBlockLoop, isPVerr]
  | succ fuel ih =>
      intro i decls
      rw [parseBlockLoop]
      split
      · split
        · simp [isPVerr]
        · simp [isPVerr]
      · split
        · rename_i hnotend hprop
          split
          · exact ih _ _
          · rename_i hnotval
            exact absurd (curTok_follow hpv hprop) hnotval
        · exact ih _ _

theorem parseBlock_no_pverr {toks : List Token}
    (hpv : PVtypes (toks.map Token.type)) : blockPVerrUnreachable toks := by
  intro fuel i
  rw [parseBlock]
  split
  · exact parseBlockLoop_no_pverr hpv fuel (i + 1) []
  · simp [isPVerr]

/-- Inversion of the `match`-and-prepend pattern in each lexer branch. -/
theorem consOk {x : LexOut} {tok : Token} {toks : List Token}
    (h : (match x with
          | LexOut.ok rest => LexOut.ok (tok :: rest)
          | o => o) = .ok toks) :
    ∃ rest, x = .ok rest ∧ toks = tok :: rest := by
  cases x <;> simp_all

/-- Inversion for the branch prepending a `PROPERTY` / `VALUE` pair. -/
theorem cons2Ok {x : LexOut} {tok1 tok2 : Token} {toks : List Token}
    (h : (match x with
          | LexOut.ok rest => LexOut.ok (tok1 :: tok2 :: rest)
          | o => o) = .ok toks) :
    ∃ rest, x = .ok rest ∧ toks = tok1 :: tok2 :: rest := by
  cases x <;> simp_all

/-- Every successful run of the GemSheet lexer emits a `PVtypes` stream:
each `PROPERTY` is immediately followed by its `VALUE`, closed by exactly
one final `EOF`. -/
theorem lexLoop_pv :
    ∀ fuel st toks, lexLoop fuel st = .ok toks →
      PVtypes (toks.map Token.type) := by
  intro fuel
  induction fuel with
  | zero => intro st toks h; simp [lexLoop] at h
  | succ fuel ih =>
      intro st toks h
      rw [lexLoop] at h
      split at h
      · cases h
        simpa using PVtypes.base
      · split at h
        · exact ih _ _ h
        · split at h
          · obtain ⟨rest, hrec, rfl⟩ := consOk h
            exact .other (by simp) (by simp) (ih _ _ hrec)
          · split at h
            · obtain ⟨rest, hrec, rfl⟩ := consOk h
              exact .other (by simp) (by simp) (ih _ _ hrec)
            · split at h
              · obtain ⟨rest, hrec, rfl⟩ := consOk h
                exact .other (by simp) (by simp) (ih _ _ hrec)
              · split at h
                · obtain ⟨rest, hrec, rfl⟩ := consOk h
                  exact .other (by simp) (by simp) (ih _ _ hrec)
                · split at h
                  · -- letter-led branch
                    simp only [] at h
                    split at h
                    · -- TAG before '{'
                      obtain ⟨rest, hrec, rfl⟩ := consOk h
                      exact .other (by simp) (by simp) (ih _ _ hrec)
                    · split at h
                      · -- PROPERTY / VALUE pair
                        split at h
                        · obtain ⟨rest, hrec, rfl⟩ := cons2Ok h
                          exact .pv (ih _ _ hrec)
                        · exact absurd h (by simp)
                      · exact absurd h (by simp)
                  · exact absurd h (by simp)

/-- C10: every token list successfully returned by the GemSheet lexer has
each `PROPERTY` immediately followed by its `VALUE` and ends with exactly
one `EOF` sentinel (the `PVtypes` shape); consequently, on any
lexer-produced token list, the `Expected value after property`
`InvalidSyntax` branch inside `parse_block` is unreachable at every fuel
and entry index. -/
theorem gemSheet_lexer_property_value_invariant (fn s : String)
    (h : (lex fn s).isOkB = true) :
    PVtypes ((toksOf (lex fn s)).map Token.type) ∧
      blockPVerrUnreachable (toksOf (lex fn s)) := by
  rcases hl : lex fn s with toks | e | _
  · have hpv := lexLoop_pv _ _ _ hl
    exact ⟨hpv, parseBlock_no_pverr hpv⟩
  · rw [hl] at h; simp [LexOut.isOkB] at h
  · rw [hl] at h; simp [LexOut.isOkB] at h

/-- Witness for C10 at a concrete stylesheet. -/
theorem gemSheet_lexer_property_value_invariant_witness :
    PVtypes ((toksOf (lex "style.gms" "rect \x7b color: red; \x7d")).map Token.type) ∧
      blockPVerrUnreachable (toksOf (lex "style.gms" "rect \x7b color: red; \x7d")) :=
  gemSheet_lexer_property_value_invariant "style.gms" "rect \x7b color: red; \x7d"
    (by decide)

end gemSheet

namespace gemXML

/-- Token kinds of the GemXML lexer (`gemXML.TT`). -/
inductive TT where
  | EOF | TAG | CLOSE | TEXT | DATA | ATTRIBUTE
deriving DecidableEq

/-- `gemXML.Token`.  `ATTRIBUTE`/`DATA` tokens are created with `None`
positions, so the position fields are optional. -/
structure Token where
  startPos : Option Pos
  endPos : Option Pos
  type : TT
  value : String := ""
deriving DecidableEq

/-- `gemXML.Error` and its subclasses; the parser may construct errors from
tokens whose positions are `None`, hence optional fields. -/
structure Err where
  startPos : Option Pos
  endPos : Option Pos
  name : String
  details : String
deriving DecidableEq

/-- Polymorphic outcome: success, a returned `Error`, an unhandled Python
exception (`crash`, carrying the exception type), or fuel exhaustion. -/
inductive LRes (α : Type) where
  | ok (v : α)
  | err (e : Err)
  | crash (msg : String)
  | timeout
deriving DecidableEq

/-- `VALID_TAGS` of gemXML.py. -/
def VALID_TAGS : List String :=
  ["window", "text", "rect", "circle", "line", "include", "div",
   "h1", "h2", "h3", "b", "i", "bi", "u"]

/-- `VALID_INCLUDES` of gemXML.py. -/
def VALID_INCLUDES : List String := ["style", "md"]

/-- The double-quote character. -/
def qChar : Char := Char.ofNat 34

/-- The apostrophe character. -/
def aposChar : Char := Char.ofNat 39

/-- `asterisk_mds[count - 1]`, the element name synthesized for a run of
`count` asterisks (`asterisk_mds = ["i", "b", "bi"]`). -/
def mdName (count : Nat) : String := ["i", "b", "bi"].getD (count - 1) ""

/-- `f"h{count}"`. -/
def hName (count : Nat) : String := "h" ++ toString count

/-- The attribute-pair loop of the `<...>` branch
(`while self.current_char is not None and self.current_char != ">"`).
Returns the attribute mapping and the state at the closing `>` (or at
end of input).  Also needs fuel: an iteration that reads an empty
attribute name and then finds `=` consumes only one character. -/
def lexAttrs : Nat → LexSt → List (String × String) →
    LRes (List (String × String) × LexSt)
  | 0, _, _ => .timeout
  | fuel + 1, st, attrs =>
    match st.cur with
    | none => .ok (attrs, st)
    | some c =>
      if c = '>' then .ok (attrs, st)
      else
        -- attribute name: letters only
        match takeWhileCh isAsciiLetter st with
        | (aCs, st1) =>
          match skipWS st1 with
          | st2 =>
            if st2.cur = some '=' then
              match skipWS st2.advance with
              | st3 =>
                if st3.cur = some qChar then
                  match takeWhileCh (fun ch => !(ch = qChar || ch = '\n')) st3.advance with
                  | (dCs, st5) =>
                    if st5.cur = some qChar then
                      lexAttrs fuel (skipWS st5.advance)
                        (dictInsert attrs (String.mk aCs) (String.mk dCs))
                    else
                      .err ⟨some st5.pos, some st5.pos, "ExpectedCharacter",
                            "Expected terminating '\"' character."⟩
                else
                  .err ⟨some st3.pos, some st3.pos, "ExpectedCharacter",
                        "Expected '\"' after '='."⟩
            else
              .err ⟨some st2.pos, some st2.pos, "ExpectedCharacter",
                    "Expected '=' after attribute, found '" ++ showCur st2.cur ++
                    "' instead."⟩

/-- ATTRIBUTE/DATA token pairs emitted after a tag token, one pair per
attribute in mapping order, with `None` positions. -/
def attrToks (attrs : List (String × String)) : List Token :=
  attrs.flatMap fun ad => [⟨none, none, .ATTRIBUTE, ad.1⟩, ⟨none, none, .DATA, ad.2⟩]

/-- One iteration of the `while self.current_char is not None` loop of
`gemXML.Lexer.lex`, emitting the tokens produced from this point on.
The recursive shorthand expansion re-enters this function on a fresh state
over the extracted content, exactly like `Lexer("<md-content>", content)`.
Unhandled Python exceptions are surfaced as `crash`:
* `<` at end of input: `None not in LETTERS` raises `TypeError`;
* tag name followed by end of input: `None not in " \t\n"` raises `TypeError`;
* an error in a shorthand sub-lex: `res.register(...)` returns `None`
  before the error check, and `None[:-1]` raises `TypeError`. -/
def lexGo : Nat → LexSt → LRes (List Token)
  | 0, _ => .timeout
  | fuel + 1, st =>
    match st.cur with
    | none => .ok [⟨some st.pos, some st.pos, .EOF, ""⟩]
    | some c =>
      if isWS c then lexGo fuel st.advance
      else if c = '<' then
        match skipWS st.advance with
        | st1 =>
          match (if st1.cur = some '/' then (true, st1.advance) else (false, st1)) with
          | (isClosing, st2) =>
            match st2.cur with
            | none => .crash "TypeError"
            | some c0 =>
              if isAsciiLetter c0 then
                match takeWhileCh isAsciiAlnum st2.advance with
                | (restCs, st3) =>
                  if String.mk (c0 :: restCs) ∈ VALID_TAGS then
                    if st3.cur = some '>' then
                      match lexGo fuel st3.advance with
                      | .ok rest =>
                          .ok (⟨some st.pos, some st3.pos,
                                if isClosing then .CLOSE else .TAG,
                                String.mk (c0 :: restCs)⟩ :: rest)
                      | o => o
                    else
                      match st3.cur with
                      | none => .crash "TypeError"
                      | some c1 =>
                        if isWS c1 then
                          match lexAttrs fuel (skipWS st3) [] with
                          | .ok (attrs, st4) =>
                            match lexGo fuel st4.advance with
                            | .ok rest =>
                                .ok (⟨some st.pos, some st4.pos,
                                      if isClosing then .CLOSE else .TAG,
                                      String.mk (c0 :: restCs)⟩ ::
                                     attrToks attrs ++ rest)
                            | o => o
                          | .err e => .err e
                          | .crash m => .crash m
                          | .timeout => .timeout
                        else
                          .err ⟨some st3.pos, some st3.pos, "ExpectedCharacter",
                                "Expected '>' or a whitespace after tag name."⟩
                  else
                    .err ⟨some st.pos, some st3.pos, "UnknownTag",
                          String.mk (c0 :: restCs)⟩
              else
                .err ⟨some st2.pos, some st2.pos, "ExpectedCharacter",
                      "Expected a letter after '" ++
                      (if isClosing then "</" else "<") ++ "'"⟩
      else if c = qChar then
        match takeWhileCh (fun ch => !(ch = qChar || ch = '\n')) st.advance with
        | (dCs, st2) =>
          if st2.cur = some qChar then
            match lexGo fuel st2.advance with
            | .ok rest =>
                .ok (⟨some st.pos, some st2.pos, .DATA, String.mk dCs⟩ :: rest)
            | o => o
          else
            .err ⟨some st2.pos, some st2.pos, "ExpectedCharacter",
                  "Expected terminating '\"' character."⟩
      else if c = '#' then
        match takeWhileCh (fun ch => ch = '#') st with
        | (hashes, st1) =>
          match (takeWhileCh (fun ch => ch = ' ' || ch = '\t') st1).2 with
          | st2 =>
            if hashes.length > 3 then
              .err ⟨some st.pos, some st2.pos, "InvalidSyntax",
                    "Expected a max of 3 '#' characters."⟩
            else
              match takeWhileCh (fun ch => !(ch = '\n')) st2 with
              | (cCs, st3) =>
                if cCs = [] then
                  .err ⟨some st2.pos, some st3.pos, "InvalidSyntax",
                        "Expected content after '" ++
                        String.mk (List.replicate hashes.length '#') ++ "'."⟩
                else
                  match lexGo fuel ⟨cCs, ⟨0, 0, 0, "<md-content>"⟩⟩ with
                  | .ok innerToks =>
                    match lexGo fuel st3 with
                    | .ok rest =>
                        .ok (⟨some st.pos, some st2.pos, .TAG, hName hashes.length⟩ ::
                             (innerToks.dropLast.map fun t =>
                               { t with startPos := some st2.pos,
                                        endPos := some st3.pos }) ++
                             ⟨some st3.pos, some st3.pos, .CLOSE, hName hashes.length⟩ ::
                             rest)
                    | o => o
                  | .err _ => .crash "TypeError"
                  | .crash m => .crash m
                  | .timeout => .timeout
      else if c = '*' then
        match takeWhileCh (fun ch => ch = '*') st with
        | (stars, st1) =>
          match (takeWhileCh (fun ch => ch = ' ' || ch = '\t') st1).2 with
          | st2 =>
            if stars.length > 3 then
              .err ⟨some st.pos, some st2.pos, "InvalidSyntax",
                    "Expected a max of 3 '*' characters."⟩
            else
              match takeWhileCh (fun ch => !(ch = '*' || ch = '\n')) st2 with
              | (cCs, st3) =>
                if cCs = [] then
                  .err ⟨some st2.pos, some st3.pos, "InvalidSyntax",
                        "Expected content after '" ++
                        String.mk (List.replicate stars.length '*') ++ "'."⟩
                else if st3.cur = none ∨ st3.cur = some '\n' then
                  .err ⟨some st3.pos, some st3.pos, "InvalidSyntax",
                        "Reached EOL when parsing Markdown tag."⟩
                else
                  match takeWhileCh (fun ch => ch = '*') st3 with
                  | (endStars, st4) =>
                    if endStars.length ≠ stars.length then
                      .err ⟨some st4.pos, some st4.pos, "InvalidSyntax",
                            "Expected " ++ toString stars.length ++
                            " '*' characters, got " ++ toString endStars.length ++
                            " '*' characters instead."⟩
                    else
                      match lexGo fuel ⟨cCs, ⟨0, 0, 0, "<md-content>"⟩⟩ with
                      | .ok innerToks =>
                        match lexGo fuel st4 with
                        | .ok rest =>
                            .ok (⟨some st.pos, some st2.pos, .TAG,
                                  mdName stars.length⟩ ::
                                 (innerToks.dropLast.map fun t =>
                                   { t with startPos := some st2.pos,
                                            endPos := some st4.pos }) ++
                                 ⟨some st4.pos, some st4.pos, .CLOSE,
                                  mdName stars.length⟩ :: rest)
                        | o => o
                      | .err _ => .crash "TypeError"
                      | .crash m => .crash m
                      | .timeout => .timeout
      else
        match takeWhileCh
            (fun ch => !(ch = '\n' || ch = '<' || ch = '>' || ch = qChar ||
                          ch = aposChar)) st with
        | (cCs, st1) =>
          if cCs = [] then
            .err ⟨some st1.pos, some st1.pos, "UnexpectedCharacter",
                  "Unexpected Character: '" ++ showCur st1.cur ++ "'"⟩
          else
            match lexGo fuel st1 with
            | .ok rest =>
                .ok (⟨some st.pos, some st1.pos, .TEXT, String.mk cCs⟩ :: rest)
            | o => o

/-- `gemXML.Lexer(fn, ftxt).lex()`.  Each loop iteration (at any nesting
depth of the shorthand sub-lexers) consumes at least one character of its
text, and sub-lex content is strictly shorter than the enclosing text, so
quadratic fuel is always sufficient. -/
def lex (fn ftxt : String) : LRes (List Token) :=
  lexGo ((ftxt.length + 2) * (ftxt.length + 2)) ⟨ftxt.data, ⟨0, 0, 0, fn⟩⟩

end gemXML

namespace gemXML

/-- The kind/value projection of a successful lex. -/
def kvOf : LRes (List Token) → Option (List (TT × String))
  | .ok toks => some (toks.map fun t => (t.type, t.value))
  | _ => none

/-- C4: shorthand equivalence.  `"# Hello"` lexes to exactly the same
sequence of token kinds and values as `"<h1>Hello</h1>"`, and `"**bold**"`
as `"<b>bold</b>"`.  The explicit token lists additionally pin down the
spans: every spliced token of a shorthand carries outer-text positions
(start = content start, end = end of the shorthand) inside the shorthand's
outer extent, rather than positions of the virtual sub-lex. -/
theorem gemXML_shorthand_lex_equivalence :
    (kvOf (lex "f" "# Hello") = kvOf (lex "f" "<h1>Hello</h1>") ∧
     kvOf (lex "f" "**bold**") = kvOf (lex "f" "<b>bold</b>")) ∧
    lex "f" "# Hello" =
      .ok [⟨some ⟨0, 0, 0, "f"⟩, some ⟨2, 0, 2, "f"⟩, .TAG, "h1"⟩,
           ⟨some ⟨2, 0, 2, "f"⟩, some ⟨7, 0, 7, "f"⟩, .TEXT, "Hello"⟩,
           ⟨some ⟨7, 0, 7, "f"⟩, some ⟨7, 0, 7, "f"⟩, .CLOSE, "h1"⟩,
           ⟨some ⟨7, 0, 7, "f"⟩, some ⟨7, 0, 7, "f"⟩, .EOF, ""⟩] ∧
    lex "f" "**bold**" =
      .ok [⟨some ⟨0, 0, 0, "f"⟩, some ⟨2, 0, 2, "f"⟩, .TAG, "b"⟩,
           ⟨some ⟨2, 0, 2, "f"⟩, some ⟨8, 0, 8, "f"⟩, .TEXT, "bold"⟩,
           ⟨some ⟨8, 0, 8, "f"⟩, some ⟨8, 0, 8, "f"⟩, .CLOSE, "b"⟩,
           ⟨some ⟨8, 0, 8, "f"⟩, some ⟨8, 0, 8, "f"⟩, .EOF, ""⟩] := by
  decide

end gemXML

namespace gemXML

mutual
/-- GemXML AST node: `TextNode` or `TagNode`. -/
inductive GNode where
  | textN (startPos endPos : Option Pos) (content : String)
  | tagN (startPos endPos : Option Pos) (attributes : List (String × String))
      (tagName : String) (content : TagContent)
/-- The dynamically-typed `TagNode.content`: the parser always stores a
`NodeList` (`nodes`, with the list's own span), while `visitTextNode`
wraps a plain string (`raw`). -/
inductive TagContent where
  | nodes (startPos endPos : Option Pos) (body : List GNode)
  | raw (s : String)
end

/-- `NodeList` as returned by `Parser.parse`. -/
structure NodeListS where
  startPos : Option Pos
  endPos : Option Pos
  body : List GNode

def nodeEndPos : GNode → Option Pos
  | .textN _ ep _ => ep
  | .tagN _ ep _ _ _ => ep

/-- `str(TT)`. -/
def reprTT : TT → String
  | .EOF => "EOF"
  | .TAG => "TAG"
  | .CLOSE => "CLOSE"
  | .TEXT => "TEXT"
  | .DATA => "DATA"
  | .ATTRIBUTE => "ATTRIBUTE"

/-- `Token.__repr__`. -/
def reprTok (t : Token) : String :=
  if t.value = "" then reprTT t.type
  else reprTT t.type ++ ":" ++ String.mk [aposChar] ++ t.value ++ String.mk [aposChar]

/-- `gemXML.Parser`'s current token (see `gemSheet.curTok` for the
min-clamping: `advance` stops updating `current_tok` past the end).
Defined for non-empty token lists; the Python constructor crashes on an
empty list, which no lexer run produces. -/
def curTokX (toks : List Token) (i : Nat) : Token :=
  toks.getD (min i (toks.length - 1)) ⟨none, none, .EOF, ""⟩

/-- The `while self.current_tok.type == TT.ATTRIBUTE` loop of
`parse_tag`, folding ATTRIBUTE/DATA pairs into the attribute mapping. -/
def collectAttrs : Nat → List Token → Nat → List (String × String) →
    LRes (List (String × String) × Nat)
  | 0, _, _, _ => .timeout
  | fuel + 1, toks, i, attrs =>
    if (curTokX toks i).type = .ATTRIBUTE then
      collectAttrs fuel toks (i + 2)
        (dictInsert attrs (curTokX toks i).value (curTokX toks (i + 1)).value)
    else .ok (attrs, i)

def mismatchMsg (tagName : String) (cc : Token) : String :=
  "Expected </" ++ tagName ++ ">, found token " ++ reprTok cc ++ " instead."

mutual
/-- `Parser.parse_tag`: a TEXT token yields a `TextNode`; otherwise the
current token must be a TAG; its ATTRIBUTE/DATA pairs are folded, children
are parsed by `parse_tags`, and the next token must equal (kind + value)
a CLOSE of the same name, else `InvalidSyntax` naming the expected tag. -/
def parseTag : Nat → List Token → Nat → LRes (GNode × Nat)
  | 0, _, _ => .timeout
  | fuel + 1, toks, i =>
    if (curTokX toks i).type = .TEXT then
      .ok (.textN (curTokX toks i).startPos (curTokX toks i).endPos
            (curTokX toks i).value, i + 1)
    else if (curTokX toks i).type = .TAG then
      match collectAttrs fuel toks (i + 1) [] with
      | .ok (attrs, j) =>
        match parseTags fuel toks j with
        | .ok (sp, ep, body, k) =>
          if (curTokX toks k).type = .CLOSE ∧
              (curTokX toks k).value = (curTokX toks i).value then
            .ok (.tagN (curTokX toks i).startPos (curTokX toks k).endPos attrs
                  (curTokX toks i).value (.nodes sp ep body), k + 1)
          else
            .err ⟨(curTokX toks k).startPos, (curTokX toks k).endPos,
                  "InvalidSyntax", mismatchMsg (curTokX toks i).value (curTokX toks k)⟩
        | .err e => .err e
        | .crash m => .crash m
        | .timeout => .timeout
      | .err e => .err e
      | .crash m => .crash m
      | .timeout => .timeout
    else
      .err ⟨(curTokX toks i).startPos, (curTokX toks i).endPos, "InvalidSyntax",
            "Expected a tag, found token (" ++ reprTok (curTokX toks i) ++ ") instead."⟩

/-- `Parser.parse_tags`: record the current token's span, then consume a
maximal run of sibling tags/texts until a CLOSE or EOF token. -/
def parseTags : Nat → List Token → Nat →
    LRes (Option Pos × Option Pos × List GNode × Nat)
  | 0, _, _ => .timeout
  | fuel + 1, toks, i =>
    parseTagsGo fuel toks i (curTokX toks i).startPos (curTokX toks i).endPos []

/-- The `while self.current_tok.type not in (TT.CLOSE, TT.EOF)` loop of
`parse_tags`; `ep` tracks the last parsed node's end position. -/
def parseTagsGo : Nat → List Token → Nat → Option Pos → Option Pos →
    List GNode → LRes (Option Pos × Option Pos × List GNode × Nat)
  | 0, _, _, _, _, _ => .timeout
  | fuel + 1, toks, i, sp, ep, acc =>
    if (curTokX toks i).type = .CLOSE ∨ (curTokX toks i).type = .EOF then
      .ok (sp, ep, acc.reverse, i)
    else
      match parseTag fuel toks i with
      | .ok (node, j) => parseTagsGo fuel toks j sp (nodeEndPos node) (node :: acc)
      | .err e => .err e
      | .crash m => .crash m
      | .timeout => .timeout
end

/-- `Parser.parse`: one `parse_tags` call, then the stream must be at EOF,
else `InvalidSyntax`. -/
def parse (fuel : Nat) (toks : List Token) : LRes NodeListS :=
  match parseTags fuel toks 0 with
  | .ok (sp, ep, body, k) =>
    if (curTokX toks k).type = .EOF then .ok ⟨sp, ep, body⟩
    else
      .err ⟨(curTokX toks k).startPos, (curTokX toks k).endPos, "InvalidSyntax",
            "Cannot fully parse the file."⟩
  | .err e => .err e
  | .crash m => .crash m
  | .timeout => .timeout

/-- The error of a result, if any. -/
def errOf {α : Type} : LRes α → Option Err
  | .err e => some e
  | _ => none

/-- The next-index component of a successful `parse_tags`. -/
def tagsIdx : LRes (Option Pos × Option Pos × List GNode × Nat) → Option Nat
  | .ok (_, _, _, k) => some k
  | _ => none

end gemXML

namespace gemXML

/-- C5: after parsing an opening TAG (with its attribute pairs, at any fuel)
and its children, if the next token does not equal CLOSE of the same tag
name by kind and value, `parse_tag` fails with `InvalidSyntax` naming the
expected tag; and a top-level `parse` whose `parse_tags` run does not stop
exactly at an EOF token fails with `InvalidSyntax`. -/
theorem gemXML_parser_close_mismatch_fails :
    (∀ fuel toks i attrs j k,
      (curTokX toks i).type = .TAG →
      collectAttrs fuel toks (i + 1) [] = .ok (attrs, j) →
      tagsIdx (parseTags fuel toks j) = some k →
      ¬((curTokX toks k).type = .CLOSE ∧
          (curTokX toks k).value = (curTokX toks i).value) →
      errOf (parseTag (fuel + 1) toks i) =
        some ⟨(curTokX toks k).startPos, (curTokX toks k).endPos, "InvalidSyntax",
              mismatchMsg (curTokX toks i).value (curTokX toks k)⟩) ∧
    (∀ fuel toks k,
      tagsIdx (parseTags fuel toks 0) = some k →
      (curTokX toks k).type ≠ .EOF →
      errOf (parse fuel toks) =
        some ⟨(curTokX toks k).startPos, (curTokX toks k).endPos, "InvalidSyntax",
              "Cannot fully parse the file."⟩) := by
  constructor
  · intro fuel toks i attrs j k h1 h2 h3 h4
    rcases hpt : parseTags fuel toks j with v | e | m | _ <;> rw [hpt] at h3 <;>
      simp [tagsIdx] at h3
    obtain ⟨sp, ep, body, k'⟩ := v
    simp only [tagsIdx, Option.some.injEq] at h3
    subst h3
    simp only [parseTag, h1, h2, hpt]
    norm_num
    rw [if_neg h4]
    rfl
  · intro fuel toks k h3 hne
    rcases hpt : parseTags fuel toks 0 with v | e | m | _ <;> rw [hpt] at h3 <;>
      simp [tagsIdx] at h3
    obtain ⟨sp, ep, body, k'⟩ := v
    simp only [tagsIdx, Option.some.injEq] at h3
    subst h3
    simp only [parse, hpt]
    rw [if_neg hne]
    rfl

/-- Witness for C5: `<div>x</b>` (token form) fails naming `</div>`, and a
stray top-level CLOSE fails `Cannot fully parse the file.`. -/
theorem gemXML_parser_close_mismatch_fails_witness :
    errOf (parseTag 10 [⟨none, none, .TAG, "div"⟩, ⟨none, none, .TEXT, "x"⟩,
        ⟨none, none, .CLOSE, "b"⟩, ⟨none, none, .EOF, ""⟩] 0) =
      some ⟨none, none, "InvalidSyntax",
            "Expected </div>, found token CLOSE:'b' instead."⟩ ∧
    errOf (parse 9 [⟨none, none, .CLOSE, "div"⟩, ⟨none, none, .EOF, ""⟩]) =
      some ⟨none, none, "InvalidSyntax", "Cannot fully parse the file."⟩ := by
  constructor
  · exact gemXML_parser_close_mismatch_fails.1 9
      [⟨none, none, .TAG, "div"⟩, ⟨none, none, .TEXT, "x"⟩,
       ⟨none, none, .CLOSE, "b"⟩, ⟨none, none, .EOF, ""⟩] 0 [] 1 2
      (by rfl) (by rfl) (by rfl) (by decide)
  · exact gemXML_parser_close_mismatch_fails.2 9
      [⟨none, none, .CLOSE, "div"⟩, ⟨none, none, .EOF, ""⟩] 0 (by rfl) (by decide)

/-- `Compiler.validate`'s checks, as a Boolean: exactly one top-level node
and that node is a `window` tag node. -/
def isWindowTagB : GNode → Bool
  | .tagN _ _ _ name _ => name == "window"
  | _ => false

/-- `Compiler.validate`. -/
def validate (nl : NodeListS) : LRes Bool :=
  if nl.body.length ≠ 1 then
    .err ⟨nl.startPos, nl.endPos, "WindowError",
          "A GemXML file can only support one window at a time."⟩
  else if isWindowTagB (nl.body.headD (.textN none none "")) then .ok true
  else
    .err ⟨nl.startPos, nl.endPos, "WindowError",
          "Expected <window> tag at the start of the file."⟩

def windowShapeB (nl : NodeListS) : Bool :=
  nl.body.length == 1 && isWindowTagB (nl.body.headD (.textN none none ""))

def resIsOkB {α : Type} : LRes α → Bool
  | .ok _ => true
  | _ => false

def errNameOf {α : Type} : LRes α → Option String
  | .err e => some e.name
  | _ => none

/-- C6: `validate` succeeds exactly when the top-level node list contains
one single node and that node is a `window` tag node; every failing case
(zero nodes, several nodes, or a non-window single node) produces a
`WindowError`. -/
theorem gemXML_validate_single_window (nl : NodeListS) :
    resIsOkB (validate nl) = windowShapeB nl ∧
      errNameOf (validate nl) =
        (if windowShapeB nl then none else some "WindowError") := by
  by_cases h1 : nl.body.length = 1
  · cases hb : isWindowTagB (nl.body.headD (.textN none none "")) <;>
      simp [validate, windowShapeB, resIsOkB, errNameOf, h1, List.headD] <;>
      simp [List.headD] at hb <;> simp [hb]
  · simp [validate, windowShapeB, resIsOkB, errNameOf, h1]

end gemXML

namespace gemXML

/-- A node's or a window's style mapping (property → raw value string, as
produced by the final GemSheet parser). -/
abbrev Styles := List (String × String)

mutual
/-- Scene-graph content nodes (`Text`, `Rect`, `Circle`, `Line`, `Div`,
`Header`, `StyledContent`).  Python object identity — which the class/id
registries and the cascade resolver depend on — is modelled by a unique
`uid` assigned at construction.  `Text.contents` stores whatever value the
compiler passed (`TagNode.content`): a `NodeList` for a parsed `<text>`
element, a plain string for a `TextNode` wrapped by `visitTextNode`. -/
inductive SNode where
  | textS (uid : Nat) (styles : Styles) (contents : TagContent)
  | rectS (uid : Nat) (styles : Styles) (x y width height : Int)
  | circleS (uid : Nat) (styles : Styles) (x y radius : Int)
  | lineS (uid : Nat) (styles : Styles) (startX startY endX endY : Int)
  | divS (uid : Nat) (styles : Styles) (contents : List VisitVal)
  | headerS (uid : Nat) (styles : Styles) (headerType : Int) (contents : List VisitVal)
  | styledS (uid : Nat) (styles : Styles) (styleKind : String) (contents : List VisitVal)
/-- A value returned by a visitor: `None` (include), the `Window` itself,
or a content node.  Grouping constructs adopt the visitor results of their
children as `contents`, so their lists hold `VisitVal`s. -/
inductive VisitVal where
  | vnone
  | vwindow
  | vnode (n : SNode)
end

/-- The `Window` object: geometry, title, the live flat content list the
visitors append to, and its style mapping. -/
structure WindowData where
  x : Int
  y : Int
  width : Int
  height : Int
  title : String
  contents : List SNode
  styles : Styles

/-- An entry of `Compiler.styles`.  The source appends `node.content` —
the include's child `NodeList` AST object — to this list; `ofString`
exists only to state the specification's description of the entries
("raw path strings") for comparison. -/
inductive StyleEntry where
  | ofNodeList (startPos endPos : Option Pos) (body : List GNode)
  | ofString (s : String)

/-- Whether a pending style entry is a raw path string. -/
def StyleEntry.isOfStringB : StyleEntry → Bool
  | .ofString _ => true
  | .ofNodeList _ _ _ => false

/-- Compiler state: the `window` under construction, the `CLASSES` and
`IDS` registries (module globals in the source, cleared by
`Compiler.__init__`), `Compiler.styles`, and the next fresh object uid. -/
structure CompSt where
  window : Option WindowData
  classes : List (String × List Nat)
  ids : List (Nat × String)
  pendingStyles : List StyleEntry
  nextUid : Nat

/-- Visitor outcome threading the compiler state: success, an `Error`
object, a plain-string failure (`res.fail(f"...")` paths), an unhandled
exception, or fuel exhaustion. -/
inductive CRes (α : Type) where
  | ok (v : α) (st : CompSt)
  | err (e : Err) (st : CompSt)
  | errS (m : String) (st : CompSt)
  | crash (m : String) (st : CompSt)
  | timeout (st : CompSt)

/-- `CLASSES[class_name].append(obj)` / `CLASSES[class_name] = [obj]`. -/
def classAppend (classes : List (String × List Nat)) (cn : String) (uid : Nat) :
    List (String × List Nat) :=
  match classes with
  | [] => [(cn, [uid])]
  | (k, l) :: rest =>
      if k = cn then (k, l ++ [uid]) :: rest else (k, l) :: classAppend rest cn uid

/-- `update_class_and_id(obj)` of `visitTagNode`: a `class` attribute
appends the node to that class's registry entry (creating it if absent);
an `id` attribute whose name is already among the registered id names
raises `KeyError` — the error message interpolates `IDS[id_name]`, but
`IDS` maps node → id name, so indexing it by the id-name string fails
before `res.fail` is ever called.  A fresh id name registers the node
(`IDS[obj] = id_name`). -/
def updateClassAndId (attrs : List (String × String)) (uid : Nat) (st : CompSt) :
    Option String × CompSt :=
  let st1 :=
    match dictLookup attrs "class" with
    | some cn => { st with classes := classAppend st.classes cn uid }
    | none => st
  match dictLookup attrs "id" with
  | some idn =>
      if (st1.ids.map Prod.snd).contains idn then
        (some ("KeyError: '" ++ idn ++ "'"), st1)
      else (none, { st1 with ids := st1.ids ++ [(uid, idn)] })
  | none => (none, st1)

/-- `int(node.attributes.get(key, default))`: the default (already an int)
if the key is absent, else the attribute string parsed by `int` (`none`
models the `ValueError` raise). -/
def attrGetInt (attrs : List (String × String)) (k : String) (dflt : Int) :
    Option Int :=
  match dictLookup attrs k with
  | none => some dflt
  | some s => pyInt s

/-- Python truthiness of `TagNode.content` (`if not node.content`): a
`NodeList` instance defines neither `__bool__` nor `__len__` and is always
truthy; a plain string is truthy iff non-empty. -/
def contentTruthy : TagContent → Bool
  | .nodes _ _ _ => true
  | .raw s => s ≠ ""

/-- `str.split(c)` for a one-character separator (keeps empty pieces). -/
def splitOnCharAux (c : Char) : List Char → List Char → List String
  | [], acc => [String.mk acc.reverse]
  | x :: xs, acc =>
      if x = c then String.mk acc.reverse :: splitOnCharAux c xs []
      else splitOnCharAux c xs (x :: acc)

def pySplitChar (c : Char) (s : String) : List String := splitOnCharAux c s.data []

/-- Python `str.splitlines` for newline-separated text. -/
def pySplitlines (s : String) : List String :=
  if s = "" then []
  else
    let parts := pySplitChar '\n' s
    if s.data.getLast? = some '\n' then parts.dropLast else parts

def strJoinSep (sep : String) : List String → String
  | [] => ""
  | [x] => x
  | x :: xs => x ++ sep ++ strJoinSep sep xs

/-- Python `repr` of the attribute dict, `{'k': 'v', ...}` (string escaping
inside keys/values is not modelled; it is display-only). -/
def pyDictRepr (attrs : List (String × String)) : String :=
  "\x7b" ++ strJoinSep ", " (attrs.map fun kv => "'" ++ kv.1 ++ "': '" ++ kv.2 ++ "'") ++
    "\x7d"

mutual
/-- `TextNode.__repr__` / `TagNode.__repr__` (display-only: used in the
include branch's `FileError` message and path formatting). -/
def reprGNode : GNode → String
  | .textN _ _ content => content
  | .tagN _ _ attrs name content =>
      "<" ++ name ++ " " ++ (if attrs ≠ [] then pyDictRepr attrs else "") ++ ">\n" ++
        String.join ((pySplitlines (reprContent content)).map
          fun line => "  " ++ line ++ "\n") ++
        "</" ++ name ++ ">"

/-- `f"{content}"` for a `TagNode.content` value: `NodeList.__repr__`
(`body` if its length is not 1, else `body[0]`), or the string itself. -/
def reprContent : TagContent → String
  | .raw s => s
  | .nodes _ _ body =>
      match body with
      | [x] => reprGNode x
      | other => "[" ++ strJoinSep ", " (reprBody other) ++ "]"

/-- `repr` of each node of a `NodeList` body, in order. -/
def reprBody : List GNode → List String
  | [] => []
  | x :: xs => reprGNode x :: reprBody xs
end

/-- `node.content.body[0].content` formatted into the include path
(`f"EmeraldOS/files/{...}"`): a `TextNode`'s content is its string; a
`TagNode`'s content is a `NodeList`, whose repr the f-string takes. -/
def contentAttrStr : GNode → String
  | .textN _ _ s => s
  | .tagN _ _ _ _ c => reprContent c

end gemXML


namespace gemXML

/-- `int(node.tag_name[1])` for a header tag (`h1`/`h2`/`h3`). -/
def headerNum (name : String) : Int := (pyInt (String.mk (name.data.drop 1))).getD 0

/-- `self.window.contents.append(node)` plus the allocation of the node's
fresh uid: the state after constructing a leaf content node. -/
def appendContent (st : CompSt) (w : WindowData) (n : SNode) : CompSt :=
  { st with
    window := some { w with contents := w.contents ++ [n] },
    nextUid := st.nextUid + 1 }

/-- The snapshot-and-splice step of the grouping constructs: truncate the
window's flat content list back to the recorded length `keep` and append
the grouping node in place of the reclaimed children. -/
def spliceContent (st : CompSt) (w : WindowData) (keep : Nat) (n : SNode) : CompSt :=
  { st with
    window := some { w with contents := w.contents.take keep ++ [n] },
    nextUid := st.nextUid + 1 }

/-- The state after the `include as="style"` branch appends
`node.content` (the child `NodeList` AST object) to `Compiler.styles`;
the append happens before the extension check's error is inspected. -/
def appendPendingStyle (st : CompSt) (csp cep : Option Pos) (body : List GNode) :
    CompSt :=
  { st with pendingStyles := st.pendingStyles ++ [.ofNodeList csp cep body] }

mutual
/-- `Compiler.visit` dispatch: a `TextNode` is rewrapped by
`visitTextNode` as `TagNode(..., {}, "text", node.content)` (content a
plain string); a `TagNode` goes to `visitTagNode`. -/
def visit (fe : String → Bool) : Nat → CompSt → GNode → CRes VisitVal
  | 0, st, _ => .timeout st
  | fuel + 1, st, .textN sp ep content =>
      visitTagNode fe fuel st sp ep [] "text" (.raw content)
  | fuel + 1, st, .tagN sp ep attrs name content =>
      visitTagNode fe fuel st sp ep attrs name content

/-- `Compiler.visit` applied to a `TagNode.content` value: a `NodeList`
dispatches to `visitNodeList`; a plain string has no `visitstr` method
and fails through `no_visit_method`. -/
def visitContent (fe : String → Bool) : Nat → CompSt → TagContent → CRes (List VisitVal)
  | 0, st, _ => .timeout st
  | fuel + 1, st, .nodes _ _ body => visitNodeList fe fuel st body
  | _ + 1, st, .raw _ => .errS "No visitstr method defined." st

/-- `Compiler.visitNodeList`: visit each node in order, collecting the
results; the first failure aborts. -/
def visitNodeList (fe : String → Bool) : Nat → CompSt → List GNode → CRes (List VisitVal)
  | 0, st, _ => .timeout st
  | _ + 1, st, [] => .ok [] st
  | fuel + 1, st, n :: rest =>
      match visit fe fuel st n with
      | .ok v st1 =>
          match visitNodeList fe fuel st1 rest with
          | .ok vs st2 => .ok (v :: vs) st2
          | o => o
      | .err e st1 => .err e st1
      | .errS m st1 => .errS m st1
      | .crash m st1 => .crash m st1
      | .timeout st1 => .timeout st1

/-- `Compiler.visitTagNode`.  Notes on crash modelling:
* `rect`/`circle` evaluate `self.window.width // 2 - …` as the eagerly
  evaluated default argument of `attributes.get`, so a missing window is
  an `AttributeError` even when the attribute is present;
* `int()` on a non-integer attribute raises `ValueError`;
* appending to `self.window.contents` with no window raises
  `AttributeError`;
* `include` with an empty child `NodeList` reaches
  `node.content.body[0]` (the `if not node.content` guard never fires, a
  `NodeList` being always truthy) and raises `IndexError`;
* a duplicate id raises `KeyError` inside `update_class_and_id` (see
  there). -/
def visitTagNode (fe : String → Bool) : Nat → CompSt → Option Pos → Option Pos →
    List (String × String) → String → TagContent → CRes VisitVal
  | 0, st, _, _, _, _, _ => .timeout st
  | fuel + 1, st, sp, ep, attrs, name, content =>
    match name with
    | "window" =>
      match attrGetInt attrs "x" 45, attrGetInt attrs "y" 35,
          attrGetInt attrs "width" 30, attrGetInt attrs "height" 20 with
      | some wx, some wy, some ww, some wh =>
        if st.window.isSome then
          .err ⟨sp, ep, "WindowError", "There can only be one."⟩ st
        else
          match visitContent fe fuel
              { st with window := some ⟨wx, wy, ww, wh,
                  (dictLookup attrs "title").getD "Title", [], []⟩ } content with
          | .ok _ st2 => .ok .vwindow st2
          | .err e st2 => .err e st2
          | .errS m st2 => .errS m st2
          | .crash m st2 => .crash m st2
          | .timeout st2 => .timeout st2
      | _, _, _, _ => .crash "ValueError" st
    | "text" =>
      match st.window with
      | none => .crash "AttributeError" st
      | some w =>
        match updateClassAndId attrs st.nextUid
            (appendContent st w (.textS st.nextUid [] content)) with
        | (some m, st2) => .crash m st2
        | (none, st2) => .ok (.vnode (.textS st.nextUid [] content)) st2
    | "rect" =>
      match st.window with
      | none => .crash "AttributeError" st
      | some w =>
        match attrGetInt attrs "x" (pyDiv w.width 2 - 5),
            attrGetInt attrs "y" (pyDiv w.height 2 - 3),
            attrGetInt attrs "width" 10, attrGetInt attrs "height" 6 with
        | some rx, some ry, some rw, some rh =>
          match updateClassAndId attrs st.nextUid
              (appendContent st w (.rectS st.nextUid [] rx ry rw rh)) with
          | (some m, st2) => .crash m st2
          | (none, st2) => .ok (.vnode (.rectS st.nextUid [] rx ry rw rh)) st2
        | _, _, _, _ => .crash "ValueError" st
    | "circle" =>
      match st.window with
      | none => .crash "AttributeError" st
      | some w =>
        match attrGetInt attrs "x" (pyDiv w.width 2),
            attrGetInt attrs "y" (pyDiv w.height 2),
            attrGetInt attrs "radius" 4 with
        | some cx, some cy, some cr =>
          match updateClassAndId attrs st.nextUid
              (appendContent st w (.circleS st.nextUid [] cx cy cr)) with
          | (some m, st2) => .crash m st2
          | (none, st2) => .ok (.vnode (.circleS st.nextUid [] cx cy cr)) st2
        | _, _, _ => .crash "ValueError" st
    | "line" =>
      match ["startx", "starty", "endx", "endy"].find?
          (fun k => (dictLookup attrs k).isNone) with
      | some a =>
          .err ⟨sp, ep, "MissingAttribute", "Missing attribute: '" ++ a ++ "'"⟩ st
      | none =>
        match dictLookup attrs "startx", dictLookup attrs "starty",
            dictLookup attrs "endx", dictLookup attrs "endy" with
        | some s1, some s2, some s3, some s4 =>
          match pyInt s1, pyInt s2, pyInt s3, pyInt s4 with
          | some n1, some n2, some n3, some n4 =>
            match st.window with
            | none => .crash "AttributeError" st
            | some w =>
              match updateClassAndId attrs st.nextUid
                  (appendContent st w (.lineS st.nextUid [] n1 n2 n3 n4)) with
              | (some m, st2) => .crash m st2
              | (none, st2) => .ok (.vnode (.lineS st.nextUid [] n1 n2 n3 n4)) st2
          | _, _, _, _ => .crash "ValueError" st
        | _, _, _, _ => .crash "KeyError" st
    | "div" =>
      match st.window with
      | none => .crash "AttributeError" st
      | some w =>
        match visitContent fe fuel st content with
        | .ok results st1 =>
          match st1.window with
          | none => .crash "AttributeError" st1
          | some w1 =>
            match updateClassAndId attrs st1.nextUid
                (spliceContent st1 w1 w.contents.length
                  (.divS st1.nextUid [] results)) with
            | (some m, st3) => .crash m st3
            | (none, st3) => .ok (.vnode (.divS st1.nextUid [] results)) st3
        | .err e st1 => .err e st1
        | .errS m st1 => .errS m st1
        | .crash m st1 => .crash m st1
        | .timeout st1 => .timeout st1
    | "include" =>
      match dictLookup attrs "as" with
      | none => .err ⟨sp, ep, "MissingAttribute", "Missing attribute: 'as'"⟩ st
      | some asVal =>
        if asVal ∉ VALID_INCLUDES then
          .err ⟨sp, ep, "AttributeError",
                "Expected one of the following for 'as' attribute: style, md."⟩ st
        else if contentTruthy content = false then
          .err ⟨sp, ep, "MissingAttribute", "File path cannot be empty."⟩ st
        else
          match content with
          | .raw _ => .crash "AttributeError" st
          | .nodes csp cep body =>
            match body with
            | [] => .crash "IndexError" st
            | first :: _ =>
              if fe ("EmeraldOS/files/" ++ contentAttrStr first) = false then
                .err ⟨sp, ep, "FileError",
                      "Cannot find file " ++ reprContent (.nodes csp cep body) ++ "."⟩ st
              else if asVal = "style" then
                match first with
                | .tagN _ _ _ _ _ => .crash "AttributeError" st
                | .textN _ _ p =>
                  if pyEndsWith p ".gms" then
                    .ok .vnone (appendPendingStyle st csp cep body)
                  else
                    .err ⟨sp, ep, "FileError", "Stylesheet must end in '.gms'."⟩
                      (appendPendingStyle st csp cep body)
              else
                match first with
                | .tagN _ _ _ _ _ => .crash "AttributeError" st
                | .textN _ _ p =>
                  if pyEndsWith p ".md" then .ok .vnone st
                  else .err ⟨sp, ep, "FileError", "Markdown file must end in '.md'."⟩ st
    | other =>
      if other = "h1" ∨ other = "h2" ∨ other = "h3" then
        match st.window with
        | none => .crash "AttributeError" st
        | some w =>
          match visitContent fe fuel st content with
          | .ok results st1 =>
            match st1.window with
            | none => .crash "AttributeError" st1
            | some w1 =>
              match updateClassAndId attrs st1.nextUid
                  (spliceContent st1 w1 w.contents.length
                    (.headerS st1.nextUid [] (headerNum other) results)) with
              | (some m, st3) => .crash m st3
              | (none, st3) =>
                  .ok (.vnode (.headerS st1.nextUid [] (headerNum other) results)) st3
          | .err e st1 => .err e st1
          | .errS m st1 => .errS m st1
          | .crash m st1 => .crash m st1
          | .timeout st1 => .timeout st1
      else if other = "b" ∨ other = "i" ∨ other = "bi" ∨ other = "u" then
        match st.window with
        | none => .crash "AttributeError" st
        | some w =>
          match visitContent fe fuel st content with
          | .ok results st1 =>
            match st1.window with
            | none => .crash "AttributeError" st1
            | some w1 =>
              match updateClassAndId attrs st1.nextUid
                  (spliceContent st1 w1 w.contents.length
                    (.styledS st1.nextUid [] other results)) with
              | (some m, st3) => .crash m st3
              | (none, st3) =>
                  .ok (.vnode (.styledS st1.nextUid [] other results)) st3
          | .err e st1 => .err e st1
          | .errS m st1 => .errS m st1
          | .crash m st1 => .crash m st1
          | .timeout st1 => .timeout st1
      else
        .err ⟨sp, ep, "UnknownTag", "<" ++ other ++ "> (when compiling)"⟩ st
end

end gemXML

namespace gemXML

/-- The module-level mutable registries `CLASSES` and `IDS`. -/
structure Globals where
  classes : List (String × List Nat)
  ids : List (Nat × String)

/-- Observable outcome of one compile pass. -/
inductive CompileOut where
  | ok (vals : List VisitVal) (window : Option WindowData)
      (pendingStyles : List StyleEntry)
  | err (e : Err)
  | errS (m : String)
  | crash (m : String)
  | timeout

/-- One compile pass over a parsed document, with the process-level
registry state threaded explicitly: `Compiler()` is constructed
(`__init__` clears `CLASSES` and `IDS`, whatever they held), `validate`
runs, then `visit` over the top-level node list; the final registry
contents are returned beside the outcome.  `fe` is the collaborator
capability `os.path.exists`. -/
def compileProgram (fe : String → Bool) (fuel : Nat) (g : Globals)
    (nl : NodeListS) : Globals × CompileOut :=
  -- CLASSES.clear(); IDS.clear() — the incoming contents of `g` are erased
  let st0 : CompSt := ⟨none, [], [], [], 0⟩
  match validate nl with
  | .ok _ =>
    match visitNodeList fe fuel st0 nl.body with
    | .ok vals st => (⟨st.classes, st.ids⟩, .ok vals st.window st.pendingStyles)
    | .err e st => (⟨st.classes, st.ids⟩, .err e)
    | .errS m st => (⟨st.classes, st.ids⟩, .errS m)
    | .crash m st => (⟨st.classes, st.ids⟩, .crash m)
    | .timeout st => (⟨st.classes, st.ids⟩, .timeout)
  | .err e => (⟨st0.classes, st0.ids⟩, .err e)
  | .crash m => (⟨st0.classes, st0.ids⟩, .crash m)
  | .timeout => (⟨st0.classes, st0.ids⟩, .timeout)

end gemXML

namespace gemXML

/-- A document whose two text nodes reuse the id name `a`. -/
def duplicateIdDoc : NodeListS :=
  ⟨none, none, [.tagN none none [] "window" (.nodes none none
    [.tagN none none [("id", "a")] "text" (.nodes none none [.textN none none "x"]),
     .tagN none none [("id", "a")] "text" (.nodes none none [.textN none none "y"])])]⟩

/-- The same document with distinct id names `a`, `b` (and a class). -/
def freshIdsDoc : NodeListS :=
  ⟨none, none, [.tagN none none [] "window" (.nodes none none
    [.tagN none none [("id", "a")] "text" (.nodes none none [.textN none none "x"]),
     .tagN none none [("id", "b"), ("class", "c")] "text"
       (.nodes none none [.textN none none "y"])])]⟩

/-- C1 (code-bug evidence): compiling a document that reuses an id name
aborts, but not with an IdCollision error — `update_class_and_id` raises
an unhandled `KeyError` while formatting the duplicate-id message, because
`IDS` maps node → id name and the message indexes `IDS[id_name]` by the
string.  The first `text` node was registered (`IDS = {node0: "a"}`);
the second, carrying the same id, crashes the compile.  With distinct id
names both nodes register (`IDS = {node0: "a", node1: "b"}`, and the class
registry holds the `c` entry). -/
theorem gemXML_duplicate_id_keyerror_crash :
    compileProgram (fun _ => true) 100 ⟨[], []⟩ duplicateIdDoc =
      (⟨[], [(0, "a")]⟩, .crash "KeyError: 'a'") ∧
    (compileProgram (fun _ => true) 100 ⟨[], []⟩ freshIdsDoc).1 =
      ⟨[("c", [1])], [(0, "a"), (1, "b")]⟩ :=
  ⟨rfl, rfl⟩

/-- C3: the compile pass owns its registries.  `Compiler.__init__` clears
the module-level `CLASSES`/`IDS`, so one compile's outcome and final
registry contents never depend on the registry state it started from; in
particular compiling `d2` right after compiling `d1` is identical to
compiling `d2` on a fresh process. -/
theorem gemXML_compile_registry_independence
    (fe : String → Bool) (fuel : Nat) (g g' : Globals) (d1 d2 : NodeListS) :
    compileProgram fe fuel g d2 = compileProgram fe fuel g' d2 ∧
    compileProgram fe fuel (compileProgram fe fuel g d1).1 d2 =
      compileProgram fe fuel ⟨[], []⟩ d2 :=
  ⟨rfl, rfl⟩

/-- C7: inside any window `w`, `<rect>` with no attributes compiles to
`Rect(w.width // 2 - 5, w.height // 2 - 3, 10, 6)` appended to the window
contents, and `<circle>` with no attributes to
`Circle(w.width // 2, w.height // 2, 4)`. -/
theorem gemXML_rect_circle_defaults
    (fe : String → Bool) (fuel : Nat) (st : CompSt) (w : WindowData)
    (sp ep : Option Pos) (c : TagContent) (hw : st.window = some w) :
    visitTagNode fe (fuel + 1) st sp ep [] "rect" c =
      .ok (.vnode (.rectS st.nextUid [] (pyDiv w.width 2 - 5)
            (pyDiv w.height 2 - 3) 10 6))
        (appendContent st w (.rectS st.nextUid [] (pyDiv w.width 2 - 5)
            (pyDiv w.height 2 - 3) 10 6)) ∧
    visitTagNode fe (fuel + 1) st sp ep [] "circle" c =
      .ok (.vnode (.circleS st.nextUid [] (pyDiv w.width 2) (pyDiv w.height 2) 4))
        (appendContent st w (.circleS st.nextUid [] (pyDiv w.width 2)
            (pyDiv w.height 2) 4)) := by
  obtain ⟨win, cls, ids, ps, uid⟩ := st
  simp only [CompSt.window] at hw
  subst hw
  exact ⟨rfl, rfl⟩

/-- Witness for C7: in the default 30×20 window, `<rect>` yields
`x=10, y=7, width=10, height=6` and `<circle>` yields `x=15, y=10, r=4`. -/
theorem gemXML_rect_circle_defaults_witness :
    visitTagNode (fun _ => true) 5 ⟨some ⟨45, 35, 30, 20, "Title", [], []⟩, [], [], [], 0⟩
        none none [] "rect" (.nodes none none []) =
      .ok (.vnode (.rectS 0 [] 10 7 10 6))
        ⟨some ⟨45, 35, 30, 20, "Title", [.rectS 0 [] 10 7 10 6], []⟩, [], [], [], 1⟩ ∧
    visitTagNode (fun _ => true) 5 ⟨some ⟨45, 35, 30, 20, "Title", [], []⟩, [], [], [], 0⟩
        none none [] "circle" (.nodes none none []) =
      .ok (.vnode (.circleS 0 [] 15 10 4))
        ⟨some ⟨45, 35, 30, 20, "Title", [.circleS 0 [] 15 10 4], []⟩, [], [], [], 1⟩ :=
  gemXML_rect_circle_defaults (fun _ => true) 4
    ⟨some ⟨45, 35, 30, 20, "Title", [], []⟩, [], [], [], 0⟩
    ⟨45, 35, 30, 20, "Title", [], []⟩ none none (.nodes none none []) rfl

/-- C8: a `line` element missing any of `startx, starty, endx, endy`
fails `MissingAttribute` naming the first absent attribute in that order
(that attribute really is absent); with all four present (as parseable
integers, and no class/id bookkeeping involved) a `Line` node with those
coordinates is constructed and appended. -/
theorem gemXML_line_requires_all_coordinates :
    (∀ (fe : String → Bool) (fuel : Nat) (st : CompSt) (sp ep : Option Pos)
        (attrs : List (String × String)) (c : TagContent) (a : String),
      ["startx", "starty", "endx", "endy"].find?
          (fun k => (dictLookup attrs k).isNone) = some a →
      visitTagNode fe (fuel + 1) st sp ep attrs "line" c =
        .err ⟨sp, ep, "MissingAttribute", "Missing attribute: '" ++ a ++ "'"⟩ st ∧
      dictLookup attrs a = none) ∧
    (∀ (fe : String → Bool) (fuel : Nat) (st : CompSt) (w : WindowData)
        (sp ep : Option Pos) (attrs : List (String × String)) (c : TagContent)
        (s1 s2 s3 s4 : String) (n1 n2 n3 n4 : Int),
      st.window = some w →
      dictLookup attrs "startx" = some s1 → pyInt s1 = some n1 →
      dictLookup attrs "starty" = some s2 → pyInt s2 = some n2 →
      dictLookup attrs "endx" = some s3 → pyInt s3 = some n3 →
      dictLookup attrs "endy" = some s4 → pyInt s4 = some n4 →
      dictLookup attrs "class" = none → dictLookup attrs "id" = none →
      visitTagNode fe (fuel + 1) st sp ep attrs "line" c =
        .ok (.vnode (.lineS st.nextUid [] n1 n2 n3 n4))
          (appendContent st w (.lineS st.nextUid [] n1 n2 n3 n4))) := by
  constructor
  · intro fe fuel st sp ep attrs c a h
    constructor
    · simp only [visitTagNode, h]
    · have hp := List.find?_some h
      simpa using hp
  · intro fe fuel st w sp ep attrs c s1 s2 s3 s4 n1 n2 n3 n4 hw
    intro h1 hp1 h2 hp2 h3 hp3 h4 hp4 hcl hid
    have hfind : ["startx", "starty", "endx", "endy"].find?
        (fun k => (dictLookup attrs k).isNone) = none := by
      simp [List.find?, h1, h2, h3, h4]
    simp only [visitTagNode, hfind, h1, h2, h3, h4, hp1, hp2, hp3, hp4, hw,
      updateClassAndId, hcl, hid]

/-- Witness for C8: `<line startx="0" starty="0" endx="5">` fails
`MissingAttribute` naming `endy`, and with `endy="7"` added the node
`Line(0, 0, 5, 7)` is built. -/
theorem gemXML_line_requires_all_coordinates_witness :
    (visitTagNode (fun _ => true) 5 ⟨some ⟨45, 35, 30, 20, "Title", [], []⟩, [], [], [], 0⟩
        none none [("startx", "0"), ("starty", "0"), ("endx", "5")] "line"
        (.nodes none none []) =
      .err ⟨none, none, "MissingAttribute", "Missing attribute: 'endy'"⟩
        ⟨some ⟨45, 35, 30, 20, "Title", [], []⟩, [], [], [], 0⟩ ∧
     dictLookup [("startx", "0"), ("starty", "0"), ("endx", "5")] "endy" = none) ∧
    visitTagNode (fun _ => true) 5 ⟨some ⟨45, 35, 30, 20, "Title", [], []⟩, [], [], [], 0⟩
        none none [("startx", "0"), ("starty", "0"), ("endx", "5"), ("endy", "7")]
        "line" (.nodes none none []) =
      .ok (.vnode (.lineS 0 [] 0 0 5 7))
        ⟨some ⟨45, 35, 30, 20, "Title", [.lineS 0 [] 0 0 5 7], []⟩, [], [], [], 1⟩ :=
  ⟨gemXML_line_requires_all_coordinates.1 (fun _ => true) 4
      ⟨some ⟨45, 35, 30, 20, "Title", [], []⟩, [], [], [], 0⟩ none none
      [("startx", "0"), ("starty", "0"), ("endx", "5")] (.nodes none none [])
      "endy" (by rfl),
   gemXML_line_requires_all_coordinates.2 (fun _ => true) 4
      ⟨some ⟨45, 35, 30, 20, "Title", [], []⟩, [], [], [], 0⟩
      ⟨45, 35, 30, 20, "Title", [], []⟩ none none
      [("startx", "0"), ("starty", "0"), ("endx", "5"), ("endy", "7")]
      (.nodes none none []) "0" "0" "5" "7" 0 0 5 7 rfl
      rfl rfl rfl rfl rfl rfl rfl rfl rfl rfl⟩

end gemXML

namespace gemXML

/-- C2 counterexample: with the referenced file existing, a well-formed
`include as="style"` with child path `"a.gms"` succeeds but records the
include's child `NodeList` AST object in `Compiler.styles` — the recorded
entry is not a raw path string; and an `include as="style"` with an empty
child `NodeList` does not fail `MissingAttribute`: it crashes with an
unhandled `IndexError` at `node.content.body[0]` (a `NodeList` is always
truthy, so the `File path cannot be empty.` branch never runs). -/
theorem gemXML_include_style_claim_counterexample :
    visitTagNode (fun _ => true) 5 ⟨none, [], [], [], 0⟩ none none
        [("as", "style")] "include" (.nodes none none [.textN none none "a.gms"]) =
      .ok .vnone
        ⟨none, [], [], [.ofNodeList none none [.textN none none "a.gms"]], 0⟩ ∧
    [StyleEntry.ofNodeList none none [.textN none none "a.gms"]].all
        StyleEntry.isOfStringB = false ∧
    visitTagNode (fun _ => true) 5 ⟨none, [], [], [], 0⟩ none none
        [("as", "style")] "include" (.nodes none none []) =
      .crash "IndexError" ⟨none, [], [], [], 0⟩ :=
  ⟨rfl, rfl, rfl⟩

/-- C2 as amended: for an `include` element, a missing `as` attribute
fails `MissingAttribute`; an `as` value outside `{style, md}` fails
`AttributeError` naming the allowed set; an empty child `NodeList`
raises an unhandled `IndexError` (not `MissingAttribute`); with
`as="style"` and a literal child path, a non-existing referenced file
fails `FileError`; an existing file whose path does not end in `.gms`
fails `FileError` (after the content `NodeList` has already been
appended to the pending list); and on success the compiler records the
include's retained child `NodeList` — an AST object, not a raw path
string — as the pending style reference. -/
theorem gemXML_include_style_amended :
    (∀ (fe : String → Bool) (fuel : Nat) (st : CompSt) (sp ep : Option Pos)
        (attrs : List (String × String)) (c : TagContent),
      dictLookup attrs "as" = none →
      visitTagNode fe (fuel + 1) st sp ep attrs "include" c =
        .err ⟨sp, ep, "MissingAttribute", "Missing attribute: 'as'"⟩ st) ∧
    (∀ (fe : String → Bool) (fuel : Nat) (st : CompSt) (sp ep : Option Pos)
        (attrs : List (String × String)) (c : TagContent) (v : String),
      dictLookup attrs "as" = some v → v ∉ VALID_INCLUDES →
      visitTagNode fe (fuel + 1) st sp ep attrs "include" c =
        .err ⟨sp, ep, "AttributeError",
              "Expected one of the following for 'as' attribute: style, md."⟩ st) ∧
    (∀ (fe : String → Bool) (fuel : Nat) (st : CompSt) (sp ep csp cep : Option Pos)
        (attrs : List (String × String)),
      dictLookup attrs "as" = some "style" →
      visitTagNode fe (fuel + 1) st sp ep attrs "include" (.nodes csp cep []) =
        .crash "IndexError" st) ∧
    (∀ (fe : String → Bool) (fuel : Nat) (st : CompSt)
        (sp ep csp cep tsp tep : Option Pos) (attrs : List (String × String))
        (p : String) (rest : List GNode),
      dictLookup attrs "as" = some "style" →
      fe ("EmeraldOS/files/" ++ p) = false →
      visitTagNode fe (fuel + 1) st sp ep attrs "include"
          (.nodes csp cep (.textN tsp tep p :: rest)) =
        .err ⟨sp, ep, "FileError",
              "Cannot find file " ++
                reprContent (.nodes csp cep (.textN tsp tep p :: rest)) ++ "."⟩ st) ∧
    (∀ (fe : String → Bool) (fuel : Nat) (st : CompSt)
        (sp ep csp cep tsp tep : Option Pos) (attrs : List (String × String))
        (p : String) (rest : List GNode),
      dictLookup attrs "as" = some "style" →
      fe ("EmeraldOS/files/" ++ p) = true →
      pyEndsWith p ".gms" = false →
      visitTagNode fe (fuel + 1) st sp ep attrs "include"
          (.nodes csp cep (.textN tsp tep p :: rest)) =
        .err ⟨sp, ep, "FileError", "Stylesheet must end in '.gms'."⟩
          (appendPendingStyle st csp cep (.textN tsp tep p :: rest))) ∧
    (∀ (fe : String → Bool) (fuel : Nat) (st : CompSt)
        (sp ep csp cep tsp tep : Option Pos) (attrs : List (String × String))
        (p : String) (rest : List GNode),
      dictLookup attrs "as" = some "style" →
      fe ("EmeraldOS/files/" ++ p) = true →
      pyEndsWith p ".gms" = true →
      visitTagNode fe (fuel + 1) st sp ep attrs "include"
          (.nodes csp cep (.textN tsp tep p :: rest)) =
        .ok .vnone (appendPendingStyle st csp cep (.textN tsp tep p :: rest))) := by
  refine ⟨?_, ?_, ?_, ?_, ?_, ?_⟩
  · intro fe fuel st sp ep attrs c h
    simp only [visitTagNode, h]
  · intro fe fuel st sp ep attrs c v h h2
    simp only [visitTagNode, h]
    rw [if_pos h2]
  · intro fe fuel st sp ep csp cep attrs h
    simp [visitTagNode, h, VALID_INCLUDES, contentTruthy]
  · intro fe fuel st sp ep csp cep tsp tep attrs p rest h hfe
    simp [visitTagNode, h, VALID_INCLUDES, contentTruthy, contentAttrStr, hfe]
  · intro fe fuel st sp ep csp cep tsp tep attrs p rest h hfe hext
    simp [visitTagNode, h, VALID_INCLUDES, contentTruthy, contentAttrStr, hfe, hext]
  · intro fe fuel st sp ep csp cep tsp tep attrs p rest h hfe hext
    simp [visitTagNode, h, VALID_INCLUDES, contentTruthy, contentAttrStr, hfe, hext]

/-- Witness for the amended C2, instantiating every case at concrete
inputs. -/
theorem gemXML_include_style_amended_witness :
    visitTagNode (fun _ => true) 5 ⟨none, [], [], [], 0⟩ none none [] "include"
        (.nodes none none []) =
      .err ⟨none, none, "MissingAttribute", "Missing attribute: 'as'"⟩
        ⟨none, [], [], [], 0⟩ ∧
    visitTagNode (fun _ => true) 5 ⟨none, [], [], [], 0⟩ none none
        [("as", "css")] "include" (.nodes none none []) =
      .err ⟨none, none, "AttributeError",
            "Expected one of the following for 'as' attribute: style, md."⟩
        ⟨none, [], [], [], 0⟩ ∧
    visitTagNode (fun _ => true) 5 ⟨none, [], [], [], 0⟩ none none
        [("as", "style")] "include" (.nodes none none []) =
      .crash "IndexError" ⟨none, [], [], [], 0⟩ ∧
    visitTagNode (fun _ => false) 5 ⟨none, [], [], [], 0⟩ none none
        [("as", "style")] "include" (.nodes none none [.textN none none "a.gms"]) =
      .err ⟨none, none, "FileError", "Cannot find file a.gms."⟩
        ⟨none, [], [], [], 0⟩ ∧
    visitTagNode (fun _ => true) 5 ⟨none, [], [], [], 0⟩ none none
        [("as", "style")] "include" (.nodes none none [.textN none none "a.txt"]) =
      .err ⟨none, none, "FileError", "Stylesheet must end in '.gms'."⟩
        ⟨none, [], [], [.ofNodeList none none [.textN none none "a.txt"]], 0⟩ ∧
    visitTagNode (fun _ => true) 5 ⟨none, [], [], [], 0⟩ none none
        [("as", "style")] "include" (.nodes none none [.textN none none "a.gms"]) =
      .ok .vnone ⟨none, [], [], [.ofNodeList none none [.textN none none "a.gms"]], 0⟩ :=
  ⟨gemXML_include_style_amended.1 (fun _ => true) 4 ⟨none, [], [], [], 0⟩
      none none [] (.nodes none none []) rfl,
   gemXML_include_style_amended.2.1 (fun _ => true) 4 ⟨none, [], [], [], 0⟩
      none none [("as", "css")] (.nodes none none []) "css" rfl (by decide),
   gemXML_include_style_amended.2.2.1 (fun _ => true) 4 ⟨none, [], [], [], 0⟩
      none none none none [("as", "style")] rfl,
   gemXML_include_style_amended.2.2.2.1 (fun _ => false) 4 ⟨none, [], [], [], 0⟩
      none none none none none none [("as", "style")] "a.gms" [] rfl rfl,
   gemXML_include_style_amended.2.2.2.2.1 (fun _ => true) 4 ⟨none, [], [], [], 0⟩
      none none none none none none [("as", "style")] "a.txt" [] rfl rfl (by decide),
   gemXML_include_style_amended.2.2.2.2.2 (fun _ => true) 4 ⟨none, [], [], [], 0⟩
      none none none none none none [("as", "style")] "a.gms" [] rfl rfl (by decide)⟩

end gemXML

namespace gemXML

def stylesOfS : SNode → Styles
  | .textS _ s _ => s
  | .rectS _ s _ _ _ _ => s
  | .circleS _ s _ _ _ => s
  | .lineS _ s _ _ _ _ => s
  | .divS _ s _ => s
  | .headerS _ s _ _ => s
  | .styledS _ s _ _ => s

def uidOf : SNode → Nat
  | .textS u _ _ => u
  | .rectS u _ _ _ _ _ => u
  | .circleS u _ _ _ _ => u
  | .lineS u _ _ _ _ _ => u
  | .divS u _ _ => u
  | .headerS u _ _ _ => u
  | .styledS u _ _ _ => u

/-- `type(node).__name__.lower()`. -/
def typeNameOf : SNode → String
  | .textS _ _ _ => "text"
  | .rectS _ _ _ _ _ _ => "rect"
  | .circleS _ _ _ _ _ => "circle"
  | .lineS _ _ _ _ _ _ => "line"
  | .divS _ _ _ => "div"
  | .headerS _ _ _ _ => "header"
  | .styledS _ _ _ _ => "styledcontent"

/-- `IDS.get(node, None)` (the registry maps node identity → id name). -/
def uidLookup : List (Nat × String) → Nat → Option String
  | [], _ => none
  | (k, v) :: rest, u => if k = u then some v else uidLookup rest u

/-- `[class_name for class_name, nodes in CLASSES.items() if node in nodes]`. -/
def classesOfNode (classes : List (String × List Nat)) (uid : Nat) : List String :=
  classes.filterMap fun kv => if uid ∈ kv.2 then some kv.1 else none

/-- The selector test of `apply_cascading_styles`: split the selector key
on single spaces into independent alternatives; selected if any equals the
node's runtime kind name, `#` + its id (a falsy — empty — id never
matches), or `.` + any class the node is registered under. -/
def selectedB (ids : List (Nat × String)) (classes : List (String × List Nat))
    (n : SNode) (selKey : String) : Bool :=
  let parts := pySplitChar ' ' selKey
  parts.contains (typeNameOf n) ||
    (match uidLookup ids (uidOf n) with
     | some nid => nid ≠ "" && parts.contains ("#" ++ nid)
     | none => false) ||
    (classesOfNode classes (uidOf n)).any fun cn => parts.contains ("." ++ cn)

/-- Phase 1 of the resolver (`if parent: for prop, value in
parent.styles.items(): node.styles[prop] = value`): copy every property
of the parent's resolved mapping into the node's mapping, unconditionally
overwriting. -/
def inheritInto (base ps : Styles) : Styles :=
  ps.foldl (fun m kv => dictInsert m kv.1 kv.2) base

/-- Phases 2–3: for each rule in stylesheet order, if selected, overwrite
the node's mapping with every declaration of the rule. -/
def applyRules (rules : List (String × Styles)) (ids : List (Nat × String))
    (classes : List (String × List Nat)) (n : SNode) (base : Styles) : Styles :=
  rules.foldl
    (fun m rule =>
      if selectedB ids classes n rule.1 then
        rule.2.foldl (fun mm kv => dictInsert mm kv.1 kv.2) m
      else m)
    base

/-- The node's fully resolved style mapping: inherit (when a parent was
passed), then match and apply rules. -/
def resolveOwn (rules : List (String × Styles)) (ids : List (Nat × String))
    (classes : List (String × List Nat)) (parentStyles : Option Styles)
    (n : SNode) : Styles :=
  applyRules rules ids classes n
    (match parentStyles with
     | some ps => inheritInto (stylesOfS n) ps
     | none => stylesOfS n)

mutual
/-- `apply_cascading_styles(styles, node, parent)` on a content node:
resolve the node's own styles, then recurse into `contents` when that
attribute is a Python list (the flat-geometry nodes carry an empty list;
`Text.contents` is a string or a `NodeList`, so text never recurses),
passing this node as the parent. -/
def applyCascadingStyles (rules : List (String × Styles))
    (ids : List (Nat × String)) (classes : List (String × List Nat))
    (parentStyles : Option Styles) : SNode → Except String SNode
  | .textS uid s c =>
      .ok (.textS uid (resolveOwn rules ids classes parentStyles (.textS uid s c)) c)
  | .rectS uid s x y w h =>
      .ok (.rectS uid (resolveOwn rules ids classes parentStyles (.rectS uid s x y w h)) x y w h)
  | .circleS uid s x y r =>
      .ok (.circleS uid (resolveOwn rules ids classes parentStyles (.circleS uid s x y r)) x y r)
  | .lineS uid s a b c2 d =>
      .ok (.lineS uid (resolveOwn rules ids classes parentStyles (.lineS uid s a b c2 d)) a b c2 d)
  | .divS uid s contents =>
      match cascadeVals rules ids classes
          (resolveOwn rules ids classes parentStyles (.divS uid s contents)) contents with
      | .ok cs => .ok (.divS uid
          (resolveOwn rules ids classes parentStyles (.divS uid s contents)) cs)
      | .error m => .error m
  | .headerS uid s ht contents =>
      match cascadeVals rules ids classes
          (resolveOwn rules ids classes parentStyles (.headerS uid s ht contents)) contents with
      | .ok cs => .ok (.headerS uid
          (resolveOwn rules ids classes parentStyles (.headerS uid s ht contents)) ht cs)
      | .error m => .error m
  | .styledS uid s k contents =>
      match cascadeVals rules ids classes
          (resolveOwn rules ids classes parentStyles (.styledS uid s k contents)) contents with
      | .ok cs => .ok (.styledS uid
          (resolveOwn rules ids classes parentStyles (.styledS uid s k contents)) k cs)
      | .error m => .error m

/-- The `for child in node.contents` recursion, `ps` being the parent's
already resolved styles. -/
def cascadeVals (rules : List (String × Styles)) (ids : List (Nat × String))
    (classes : List (String × List Nat)) (ps : Styles) :
    List VisitVal → Except String (List VisitVal)
  | [] => .ok []
  | v :: rest =>
      match cascadeVal rules ids classes ps v with
      | .ok v' =>
          match cascadeVals rules ids classes ps rest with
          | .ok vs => .ok (v' :: vs)
          | .error m => .error m
      | .error m => .error m

/-- One child value.  A `None` child (produced by an `include` inside a
grouping construct) has no `styles` attribute: copying a non-empty parent
mapping into it — or applying any selected `nonetype` rule with
declarations — raises `AttributeError`; otherwise it passes through
untouched.  A nested `Window` value cannot occur (a second `window` tag
always fails WindowError before returning). -/
def cascadeVal (rules : List (String × Styles)) (ids : List (Nat × String))
    (classes : List (String × List Nat)) (ps : Styles) :
    VisitVal → Except String VisitVal
  | .vnode n =>
      match applyCascadingStyles rules ids classes (some ps) n with
      | .ok n' => .ok (.vnode n')
      | .error m => .error m
  | .vnone =>
      if ps.isEmpty then
        if rules.any (fun r => (pySplitChar ' ' r.1).contains "nonetype" && !r.2.isEmpty) then
          .error "AttributeError"
        else .ok .vnone
      else .error "AttributeError"
  | .vwindow => .ok .vwindow
end

end gemXML

namespace gemXML

theorem dictLookup_dictInsert_self {V : Type} (m : List (String × V)) (k : String)
    (v : V) : dictLookup (dictInsert m k v) k = some v := by
  induction m with
  | nil => simp [dictInsert, dictLookup]
  | cons kv rest ih =>
      by_cases h : kv.1 = k
      · simp [dictInsert, dictLookup, h]
      · simp [dictInsert, dictLookup, h, ih]

theorem dictLookup_dictInsert_other {V : Type} (m : List (String × V))
    (k k' : String) (v : V) (h : k' ≠ k) :
    dictLookup (dictInsert m k' v) k = dictLookup m k := by
  induction m with
  | nil => simp [dictInsert, dictLookup, h]
  | cons kv rest ih =>
      by_cases h2 : kv.1 = k'
      · simp [dictInsert, dictLookup, h2, h]
      · simp only [dictInsert, h2, if_false]
        by_cases h3 : kv.1 = k
        · simp [dictLookup, h3]
        · simp [dictLookup, h3, ih]

theorem dictLookup_foldl_insert_not_mem {V : Type} (l : List (String × V))
    (m : List (String × V)) (k : String) (h : k ∉ l.map Prod.fst) :
    dictLookup (l.foldl (fun acc kv => dictInsert acc kv.1 kv.2) m) k =
      dictLookup m k := by
  induction l generalizing m with
  | nil => rfl
  | cons kv rest ih =>
      simp only [List.map_cons, List.mem_cons] at h
      push_neg at h
      rw [List.foldl_cons, ih _ h.2, dictLookup_dictInsert_other _ _ _ _ h.1.symm]

/-- Every key/value of the parent mapping survives the unconditional copy
phase, whatever the node's previous mapping held. -/
theorem inheritInto_lookup (base ps : Styles) (k v : String)
    (hnd : (ps.map Prod.fst).Nodup) (h : dictLookup ps k = some v) :
    dictLookup (inheritInto base ps) k = some v := by
  induction ps generalizing base with
  | nil => simp [dictLookup] at h
  | cons kv rest ih =>
      simp only [List.map_cons, List.nodup_cons] at hnd
      by_cases hk : kv.1 = k
      · have hv : kv.2 = v := by
          simp [dictLookup, hk] at h
          exact h
        subst hk hv
        rw [inheritInto, List.foldl_cons,
          dictLookup_foldl_insert_not_mem _ _ _ hnd.1,
          dictLookup_dictInsert_self]
      · have h2 : dictLookup rest k = some v := by
          simpa [dictLookup, hk] using h
        rw [inheritInto, List.foldl_cons]
        exact ih _ hnd.2 h2

/-- No selector of the stylesheet matches the node. -/
def noSelectorMatches (rules : List (String × Styles)) (ids : List (Nat × String))
    (classes : List (String × List Nat)) (n : SNode) : Prop :=
  ∀ r ∈ rules, selectedB ids classes n r.1 = false

theorem applyRules_noMatch (rules : List (String × Styles))
    (ids : List (Nat × String)) (classes : List (String × List Nat)) (n : SNode)
    (base : Styles) (h : noSelectorMatches rules ids classes n) :
    applyRules rules ids classes n base = base := by
  induction rules generalizing base with
  | nil => rfl
  | cons r rest ih =>
      rw [applyRules, List.foldl_cons]
      have hr : selectedB ids classes n r.1 = false := h r (by simp)
      rw [hr]
      simp only [Bool.false_eq_true, if_false]
      exact ih _ fun r' hr' => h r' (by simp [hr'])

/-- A successful cascade pass gives the node exactly its resolved own
styles. -/
theorem applyCascadingStyles_styles (rules : List (String × Styles))
    (ids : List (Nat × String)) (classes : List (String × List Nat))
    (p : Option Styles) (n n' : SNode)
    (h : applyCascadingStyles rules ids classes p n = .ok n') :
    stylesOfS n' = resolveOwn rules ids classes p n := by
  cases n with
  | textS uid s c =>
      simp only [applyCascadingStyles, Except.ok.injEq] at h
      rw [← h]; rfl
  | rectS uid s x y w hh =>
      simp only [applyCascadingStyles, Except.ok.injEq] at h
      rw [← h]; rfl
  | circleS uid s x y r =>
      simp only [applyCascadingStyles, Except.ok.injEq] at h
      rw [← h]; rfl
  | lineS uid s a b c2 d =>
      simp only [applyCascadingStyles, Except.ok.injEq] at h
      rw [← h]; rfl
  | divS uid s contents =>
      simp only [applyCascadingStyles] at h
      rcases hc : cascadeVals rules ids classes
          (resolveOwn rules ids classes p (.divS uid s contents)) contents with
        cs | m <;> rw [hc] at h <;> simp at h
      rw [← h]; rfl
  | headerS uid s ht contents =>
      simp only [applyCascadingStyles] at h
      rcases hc : cascadeVals rules ids classes
          (resolveOwn rules ids classes p (.headerS uid s ht contents)) contents with
        cs | m <;> rw [hc] at h <;> simp at h
      rw [← h]; rfl
  | styledS uid s k contents =>
      simp only [applyCascadingStyles] at h
      rcases hc : cascadeVals rules ids classes
          (resolveOwn rules ids classes p (.styledS uid s k contents)) contents with
        cs | m <;> rw [hc] at h <;> simp at h
      rw [← h]; rfl

/-- C9: the cascade resolver copies every property of the parent's
already-resolved style mapping into the node's mapping before any rule
matching (first conjunct, for any prior node mapping); hence a node
matched by no selector at all ends its cascade with a style mapping
containing every property — with the parent's value — of its parent's
resolved styles (second conjunct). -/
theorem gemXML_cascade_full_inheritance :
    (∀ (base ps : Styles) (k v : String),
      (ps.map Prod.fst).Nodup → dictLookup ps k = some v →
      dictLookup (inheritInto base ps) k = some v) ∧
    (∀ (rules : List (String × Styles)) (ids : List (Nat × String))
        (classes : List (String × List Nat)) (ps : Styles) (n n' : SNode),
      (ps.map Prod.fst).Nodup →
      noSelectorMatches rules ids classes n →
      applyCascadingStyles rules ids classes (some ps) n = .ok n' →
      ∀ k v, dictLookup ps k = some v → dictLookup (stylesOfS n') k = some v) := by
  constructor
  · exact fun base ps k v hnd h => inheritInto_lookup base ps k v hnd h
  · intro rules ids classes ps n n' hnd hnm hok k v h
    rw [applyCascadingStyles_styles rules ids classes (some ps) n n' hok,
      resolveOwn, applyRules_noMatch rules ids classes n _ hnm]
    exact inheritInto_lookup _ ps k v hnd h

/-- Witness for C9: a `text` node nested in a `div` of class `box` styled
`color: green`, itself matched by no selector of the stylesheet
`.box { color: green; }`, ends with `color = green`. -/
theorem gemXML_cascade_full_inheritance_witness :
    dictLookup
        (inheritInto [("font", "mono")] [("color", "green")]) "color" =
      some "green" ∧
    dictLookup
        (stylesOfS (.textS 0 [("color", "green")] (.raw "hi"))) "color" =
      some "green" :=
  ⟨gemXML_cascade_full_inheritance.1 [("font", "mono")] [("color", "green")]
      "color" "green" (by decide) (by rfl),
   gemXML_cascade_full_inheritance.2 [(".box", [("color", "green")])] []
      [("box", [5])] [("color", "green")] (.textS 0 [] (.raw "hi"))
      (.textS 0 [("color", "green")] (.raw "hi")) (by decide)
      (by
        intro r hr
        rw [List.mem_singleton] at hr
        subst hr
        decide)
      (by rfl) "color" "green" (by rfl)⟩

end gemXML
